import Mathlib

/-!
Shallow embedding of the Music Assistant voice-skill client
(`src/skill_musicassistant/music_assistant_client.py` plus the skill-side
resolver and volume parser known from the spec and its tests).

Python duck-typed values are embedded as explicit Lean data:

* a device record reaches the client either as an attribute-bearing object
  or as a plain key/value mapping; both carry the same payload type
  `PlayerData`, and the constructor tag records the representation.
  Attribute access (`hasattr`/`getattr`) sees only attribute-style
  records; key membership sees only mapping-style records.
* an optional attribute holds `none` when the attribute is missing;
  Python truthiness of a string attribute is "present and non-empty".
* the HTTP layer is a value: a response carries its status code, raw body
  text and the outcome of decoding the body; the queue fetch used by the
  track extractor is a function from a player id to a fallible item list.
-/

namespace MusicAssistant

/-- Request envelope posted by `send_command`: command name, correlation
token and the command-specific argument mapping (opaque here). -/
structure Envelope (β : Type) where
  command : String
  message_id : String
  args : β

/-- Builds the request envelope exactly as `send_command` does: the
correlation token is the freshly drawn uuid4 hex passed in per call. -/
def mkEnvelope {β : Type} (command : String) (msgId : String) (args : β) : Envelope β :=
  { command := command, message_id := msgId, args := args }

/-- An HTTP response as the client observes it: status code, raw body
text, and the result of decoding the body as structured data (an
`Except.error` models `response.json()` raising). -/
structure HttpResponse (α : Type) where
  status_code : Nat
  text : String
  json : Except Unit α

/-- The two wire-level failure modes of the dispatcher: transport failure
carrying the status code and raw body text, and a body that does not
decode. -/
inductive ClientError where
| transport (status : Nat) (body : String)
| protocol
deriving DecidableEq, Repr

/-- Core of `send_command`: given the transport response, return the
decoded body when the status code is 200, otherwise raise the transport
error with status and body text; a 200 response whose body does not
decode raises the decode error. -/
def send_command {α : Type} (resp : HttpResponse α) : Except ClientError α :=
  if resp.status_code = 200 then
    match resp.json with
    | .ok v => .ok v
    | .error _ => .error .protocol
  else
    .error (.transport resp.status_code resp.text)

/-- Raw playback-state attribute value: either an enum-like object whose
`value` attribute is read, or a plain value whose string form is used. -/
inductive RawState where
| enumLike (value : String)
| plain (s : String)
deriving DecidableEq, Repr

/-- The `current_media` record: optional title and artist attributes. -/
structure Media where
  title : Option String
  artist : Option String
deriving DecidableEq, Repr

/-- The nested `media_item` of a queue item: optional name attribute. -/
structure MediaItem where
  name : Option String
deriving DecidableEq, Repr

/-- A queue item: optional name and optional nested media item. -/
structure QueueItem where
  name : Option String
  media_item : Option MediaItem
deriving DecidableEq, Repr

/-- Payload of a device record. `player_id` is always carried (every
server payload and test double has one); every other field is an
optional attribute. -/
structure PlayerData where
  player_id : String
  name : Option String
  playback_state : Option RawState
  powered : Option Bool
  volume_level : Option Int
  volume_muted : Option Bool
  current_media : Option Media
  current_item_id : Option String
deriving DecidableEq, Repr

/-- A device record as the client receives it: the same payload either as
an attribute-bearing object or as a plain key/value mapping. -/
inductive PlayerRecord where
| attr (d : PlayerData)
| map (d : PlayerData)
deriving DecidableEq, Repr

/-- Attribute access for `current_media`: mapping-style records expose no
attributes, so access on them finds nothing. -/
def PlayerRecord.attrCurrentMedia : PlayerRecord → Option Media
| .attr d => d.current_media
| .map _ => none

/-- Attribute access for `current_item_id`. -/
def PlayerRecord.attrCurrentItemId : PlayerRecord → Option String
| .attr d => d.current_item_id
| .map _ => none

/-- Attribute access for `playback_state`. -/
def PlayerRecord.attrPlaybackState : PlayerRecord → Option RawState
| .attr d => d.playback_state
| .map _ => none

/-- Attribute access for `powered`. -/
def PlayerRecord.attrPowered : PlayerRecord → Option Bool
| .attr d => d.powered
| .map _ => none

/-- Attribute access for `volume_level`. -/
def PlayerRecord.attrVolumeLevel : PlayerRecord → Option Int
| .attr d => d.volume_level
| .map _ => none

/-- Attribute access for `volume_muted`. -/
def PlayerRecord.attrVolumeMuted : PlayerRecord → Option Bool
| .attr d => d.volume_muted
| .map _ => none

/-- Attribute access for `name`. -/
def PlayerRecord.attrName : PlayerRecord → Option String
| .attr d => d.name
| .map _ => none

/-- The `player_id` read where the code accesses it as an attribute
(only ever reached on records that carry it). -/
def PlayerRecord.playerIdOf : PlayerRecord → String
| .attr d => d.player_id
| .map d => d.player_id

/-- The `_find_player_by_id` loop. For each record in order: an
attribute-style record is returned through the attribute branch when its
id equals the requested one, but on a mismatch control falls into the
key-membership test, which raises a TypeError on an attribute-bearing
object (no container protocol), so the scan aborts with an error there;
a mapping-style record has no such attribute, reaches the key-membership
branch safely, is returned on equality and otherwise the loop moves to
the next record; an exhausted list yields no record. -/
def find_player_by_id : List PlayerRecord → String → Except Unit (Option PlayerRecord)
| [], _ => .ok none
| .attr d :: _, pid =>
  if d.player_id == pid then .ok (some (.attr d)) else .error ()
| .map d :: rest, pid =>
  if d.player_id == pid then .ok (some (.map d)) else find_player_by_id rest pid

/-- String form of a raw playback-state value: the `value` attribute of
an enum-like object, the plain string otherwise. -/
def renderRawState : RawState → String
| .enumLike v => v
| .plain s => s

/-- `_extract_playback_state`: the sentinel "unknown" when the
`playback_state` attribute is missing, otherwise the string form of the
raw value, whatever it is. -/
def extract_playback_state (p : PlayerRecord) : String :=
  match p.attrPlaybackState with
  | none => "unknown"
  | some st => renderRawState st

/-- Python truthiness of an optional string attribute: present and
non-empty. -/
def strTruthy : Option String → Bool
| some s => s ≠ ""
| none => false

/-- Python truthiness applied to an optional result: an empty-string
result counts as no result. -/
def nonemptyFilter : Option String → Option String
| some s => if s = "" then none else some s
| none => none

/-- `_extract_track_from_media`: nothing unless the record has a truthy
`current_media` whose title is present and non-empty; then the title,
prefixed by the artist and a separator when the artist attribute is
present and non-empty. -/
def extract_track_from_media (p : PlayerRecord) : Option String :=
  match p.attrCurrentMedia with
  | none => none
  | some media =>
    match media.title with
    | none => none
    | some title =>
      if title = "" then none
      else
        match media.artist with
        | some artist => if artist = "" then some title else some (artist ++ " - " ++ title)
        | none => some title

/-- Track text of the first queue item: its name when present and
non-empty, else the name attribute of its nested media item read with a
default of nothing (an empty media-item name is returned as is). -/
def queueItemTrack (item : QueueItem) : Option String :=
  if strTruthy item.name then item.name
  else
    match item.media_item with
    | some mi => mi.name
    | none => none

/-- `_extract_track_from_queue`: nothing unless the record has a truthy
`current_item_id`; then fetch the first queue item for the player id
(nothing when the fetch raises or returns an empty list) and read its
track text. -/
def extract_track_from_queue (fetchQueue : String → Except Unit (List QueueItem))
    (p : PlayerRecord) : Option String :=
  match p.attrCurrentItemId with
  | none => none
  | some itemId =>
    if itemId = "" then none
    else
      match fetchQueue p.playerIdOf with
      | .error _ => none
      | .ok [] => none
      | .ok (item :: _) => queueItemTrack item

/-- `_extract_current_track`: the media-derived label when truthy, else
the queue-derived label when truthy, else the sentinel. -/
def extract_current_track (fetchQueue : String → Except Unit (List QueueItem))
    (p : PlayerRecord) : String :=
  match nonemptyFilter (extract_track_from_media p) with
  | some t => t
  | none =>
    match nonemptyFilter (extract_track_from_queue fetchQueue p) with
    | some t => t
    | none => "No track"

/-- The snapshot assembled by `get_player_state`. -/
structure StateSnapshot where
  state : String
  powered : Bool
  volume_level : Option Int
  volume_muted : Bool
  current_track : String
  player_name : String
deriving DecidableEq, Repr

/-- `get_player_state`: run the lookup over the freshly fetched device
list — an error raised by the scan propagates to the caller unhandled —
then nothing when no record was found; otherwise assemble the snapshot,
defaulting powered to true, muted to false and the display name to
"Unknown" when the attributes are missing. -/
def get_player_state (players : List PlayerRecord)
    (fetchQueue : String → Except Unit (List QueueItem)) (pid : String) :
    Except Unit (Option StateSnapshot) :=
  match find_player_by_id players pid with
  | .error e => .error e
  | .ok none => .ok none
  | .ok (some player) =>
    .ok (some
      { state := extract_playback_state player
        powered := player.attrPowered.getD true
        volume_level := player.attrVolumeLevel
        volume_muted := player.attrVolumeMuted.getD false
        current_track := extract_current_track fetchQueue player
        player_name := player.attrName.getD "Unknown" })

/-- Step (a) of the track chain as the specification words it: a label
exists when the record has a current-media entry with a non-empty title,
formatted as artist, separator, title when an artist is present and
non-empty, else just the title. -/
def mediaLabelSpec (p : PlayerRecord) : Option String :=
  match p.attrCurrentMedia with
  | none => none
  | some media =>
    match media.title with
    | none => none
    | some title =>
      if title = "" then none
      else
        match media.artist with
        | some artist => if artist = "" then some title else some (artist ++ " - " ++ title)
        | none => some title

/-- Fallback inside step (b) as the specification words it: the name of
the nested media item when present and non-empty. -/
def mediaItemLabelSpec : Option MediaItem → Option String
| some mi =>
  match mi.name with
  | some m => if m = "" then none else some m
  | none => none
| none => none

/-- Label of one queue item as the specification words it: its name when
present and non-empty, or failing that the nested media item name. -/
def queueItemLabelSpec (item : QueueItem) : Option String :=
  match item.name with
  | some n => if n = "" then mediaItemLabelSpec item.media_item else some n
  | none => mediaItemLabelSpec item.media_item

/-- Step (b) of the track chain as the specification words it: when the
record has a non-empty current queue-item id, the first fetched queue
item is labelled; a failed fetch, an empty fetch result or empty-string
names give no result from this step. -/
def queueLabelSpec (fetchQueue : String → Except Unit (List QueueItem))
    (p : PlayerRecord) : Option String :=
  match p.attrCurrentItemId with
  | none => none
  | some itemId =>
    if itemId = "" then none
    else
      match fetchQueue p.playerIdOf with
      | .error _ => none
      | .ok [] => none
      | .ok (item :: _) => queueItemLabelSpec item

/-- The current-track fallback chain as the specification words it:
step (a), else step (b), else exactly the sentinel. -/
def currentTrackSpec (fetchQueue : String → Except Unit (List QueueItem))
    (p : PlayerRecord) : String :=
  match mediaLabelSpec p with
  | some t => t
  | none =>
    match queueLabelSpec fetchQueue p with
    | some t => t
    | none => "No track"

/-- ASCII lowercasing of one character, modelling Python lowercasing on
the ASCII range the skill handles. -/
def lowerChar (c : Char) : Char :=
  if 'A' ≤ c ∧ c ≤ 'Z' then Char.ofNat (c.toNat + 32) else c

/-- Lowercase every character of a list. -/
def lowerChars (l : List Char) : List Char := l.map lowerChar

/-- Whether `needle` occurs as a contiguous subsequence of the second
list. -/
def containsSeq (needle : List Char) : List Char → Bool
| [] => needle.isEmpty
| c :: rest => needle.isPrefixOf (c :: rest) || containsSeq needle rest

/-- Case-insensitive substring test: the hint occurs inside the display
name once both are lowercased. -/
def containsCI (hay needle : String) : Bool :=
  containsSeq (lowerChars needle.toList) (lowerChars hay.toList)

/-- A device as the skill-side resolver sees it: display name and id. -/
structure SkillPlayer where
  name : String
  player_id : String
deriving DecidableEq, Repr

/-- Modelled from the spec: the skill-side Player Resolver
(`_get_player_id` of the skill package, whose source is not in the
repository snapshot; only its tests are). Fetch the device list (a
failed fetch is caught and gives absent); an empty list gives absent
regardless of hint or default; a present non-empty hint selects the
first device, in server order, whose display name contains it
case-insensitively; otherwise the configured default id when set and
non-empty, otherwise the first device. -/
def get_player_id (fetchPlayers : Except Unit (List SkillPlayer))
    (location_hint : Option String) (default_player : Option String) : Option String :=
  match fetchPlayers with
  | .error _ => none
  | .ok [] => none
  | .ok (first :: rest) =>
    let hintMatch : Option String :=
      match location_hint with
      | none => none
      | some h =>
        if h = "" then none
        else ((first :: rest).find? (fun p => containsCI p.name h)).map (fun p => p.player_id)
    match hintMatch with
    | some pid => some pid
    | none =>
      match default_player with
      | some d => if d = "" then some first.player_id else some d
      | none => some first.player_id

/-- ASCII digit test, modelling Python digit parsing. -/
def isDigitChar (c : Char) : Bool := decide ('0' ≤ c) && decide (c ≤ '9')

/-- Split a character list into its maximal leading digit run and the
rest. -/
def spanDigits : List Char → List Char × List Char
| [] => ([], [])
| c :: rest =>
  if isDigitChar c then
    let p := spanDigits rest
    (c :: p.1, p.2)
  else ([], c :: rest)

/-- Numeric value of one ASCII digit. -/
def digitVal (c : Char) : Nat := c.toNat - 48

/-- Decimal value of a digit run. -/
def digitsToNat (l : List Char) : Nat := l.foldl (fun acc c => 10 * acc + digitVal c) 0

/-- The recognized volume words, applied to an already-lowercased list. -/
def wordVolume (l : List Char) : Option Nat :=
  if l = String.toList "mute" then some 0
  else if l = String.toList "half" then some 50
  else if l = String.toList "loud" then some 75
  else if l = String.toList "max" then some 100
  else none

/-- The suffixes a digit run may carry: nothing, a percent sign, or the
word percent with optional separating space (case-insensitive). -/
def percentSuffix (r : List Char) : Bool :=
  r.isEmpty || r == ['%'] || lowerChars r == String.toList "percent" ||
    lowerChars r == ' ' :: String.toList "percent"

/-- Modelled from the spec: the skill-side Volume Parser
(`_parse_volume_level` of the skill package, whose source is not in the
repository snapshot; only its tests are). Absent or empty input gives
absent; a digit run alone or followed by a percent marker gives its
value clamped to at most 100; the words mute, half, loud, max map
case-insensitively to 0, 50, 75, 100; anything else gives absent. -/
def parse_volume_level (text : Option String) : Option Nat :=
  match text with
  | none => none
  | some s =>
    let l := s.toList
    let p := spanDigits l
    if p.1 ≠ [] ∧ percentSuffix p.2 = true then some (min (digitsToNat p.1) 100)
    else wordVolume (lowerChars l)

/-- Resolver fallback of spec steps 3 and 4: the configured default id
when set and non-empty, otherwise the id of the first enumerated
device. -/
def fallbackId (first : SkillPlayer) (dflt : Option String) : Option String :=
  match dflt with
  | some d => if d = "" then some first.player_id else some d
  | none => some first.player_id

/-- A concrete device payload: playing state, titled current media with
an artist, id "p1". -/
def officePlayer : PlayerData :=
  { player_id := "p1", name := some "Office", playback_state := some (.plain "playing"),
    powered := some false, volume_level := some 30, volume_muted := some true,
    current_media := some { title := some "Song", artist := some "Artist" },
    current_item_id := none }

/-- A concrete device payload whose raw playback state carries a value
outside the enumerated vocabulary. -/
def flyingPlayer : PlayerData :=
  { player_id := "p9", name := some "Den", playback_state := some (.plain "flying"),
    powered := none, volume_level := none, volume_muted := none,
    current_media := none, current_item_id := none }

/-- A queue fetch that always returns an empty item list. -/
def emptyQueueFetch : String → Except Unit (List QueueItem) := fun _ => .ok []

/-- A label built of artist, separator and title is never the empty
string. -/
theorem append_sep_ne_empty (a t : String) : a ++ " - " ++ t ≠ "" := by
  intro h
  have h2 := congrArg String.length h
  rw [String.length_append, String.length_append] at h2
  have h3 : (" - " : String).length = 3 := rfl
  have h4 : ("" : String).length = 0 := rfl
  omega

/-- A value that passes the truthiness filter is non-empty. -/
theorem nonemptyFilter_some_ne {o : Option String} {t : String}
    (h : nonemptyFilter o = some t) : t ≠ "" := by
  cases o with
  | none => simp [nonemptyFilter] at h
  | some s =>
    by_cases hs : s = ""
    · simp [nonemptyFilter, hs] at h
    · simp [nonemptyFilter, hs] at h
      subst h
      exact hs

/-- Filtering the code's media-step result gives exactly the
specification's step (a) label. -/
theorem media_step_spec (p : PlayerRecord) :
    nonemptyFilter (extract_track_from_media p) = mediaLabelSpec p := by
  cases p with
  | map d => rfl
  | attr d =>
    obtain ⟨pid, nm, ps, pw, vl, vm, cm, cid⟩ := d
    cases cm with
    | none => rfl
    | some media =>
      obtain ⟨ot, oa⟩ := media
      cases ot with
      | none => rfl
      | some title =>
        by_cases ht : title = ""
        · simp [extract_track_from_media, mediaLabelSpec, PlayerRecord.attrCurrentMedia,
            ht, nonemptyFilter]
        · cases oa with
          | none =>
            simp [extract_track_from_media, mediaLabelSpec, PlayerRecord.attrCurrentMedia,
              ht, nonemptyFilter]
          | some artist =>
            by_cases ha : artist = ""
            · simp [extract_track_from_media, mediaLabelSpec, PlayerRecord.attrCurrentMedia,
                ht, ha, nonemptyFilter]
            · simp [extract_track_from_media, mediaLabelSpec, PlayerRecord.attrCurrentMedia,
                ht, ha, nonemptyFilter, append_sep_ne_empty artist title]

/-- Filtering the code's per-item queue label gives exactly the
specification's per-item label. -/
theorem queue_item_spec (item : QueueItem) :
    nonemptyFilter (queueItemTrack item) = queueItemLabelSpec item := by
  obtain ⟨oqn, om⟩ := item
  have mi_case : nonemptyFilter (match om with
      | some mi => mi.name
      | none => none) = mediaItemLabelSpec om := by
    cases om with
    | none => rfl
    | some mi =>
      obtain ⟨omn⟩ := mi
      cases omn with
      | none => rfl
      | some m =>
        by_cases hm : m = "" <;>
          simp [nonemptyFilter, mediaItemLabelSpec, hm]
  cases oqn with
  | none =>
    simpa [queueItemTrack, queueItemLabelSpec, strTruthy] using mi_case
  | some n =>
    by_cases hne : n = ""
    · subst hne
      simpa [queueItemTrack, queueItemLabelSpec, strTruthy] using mi_case
    · simp [queueItemTrack, queueItemLabelSpec, strTruthy, hne, nonemptyFilter]

/-- Filtering the code's queue-step result gives exactly the
specification's step (b) label. -/
theorem queue_step_spec (fetchQueue : String → Except Unit (List QueueItem))
    (p : PlayerRecord) :
    nonemptyFilter (extract_track_from_queue fetchQueue p) = queueLabelSpec fetchQueue p := by
  cases p with
  | map d => rfl
  | attr d =>
    obtain ⟨pid, nm, ps, pw, vl, vm, cm, cid⟩ := d
    cases cid with
    | none => rfl
    | some itemId =>
      by_cases hid : itemId = ""
      · simp [extract_track_from_queue, queueLabelSpec, PlayerRecord.attrCurrentItemId,
          hid, nonemptyFilter]
      · simp only [extract_track_from_queue, queueLabelSpec, PlayerRecord.attrCurrentItemId,
          if_neg hid]
        cases fetchQueue (PlayerRecord.attr
            ⟨pid, nm, ps, pw, vl, vm, cm, some itemId⟩).playerIdOf with
        | error e => rfl
        | ok items =>
          cases items with
          | nil => rfl
          | cons item rest => exact queue_item_spec item

/-- C1: for every player record, the current-track label follows the
strict fallback chain the specification states: a media-derived label
from a non-empty title (artist-prefixed when an artist is present and
non-empty), else the queue-derived label obtained under the non-empty
current queue-item id (fetch errors treated as no result from that
step), else exactly the sentinel "No track". -/
theorem extract_current_track_follows_chain
    (fetchQueue : String → Except Unit (List QueueItem)) (p : PlayerRecord) :
    extract_current_track fetchQueue p = currentTrackSpec fetchQueue p := by
  unfold extract_current_track currentTrackSpec
  rw [media_step_spec, queue_step_spec]

/-- C10: the current-track extraction always yields a non-empty string
(a non-empty label or exactly the sentinel), an empty-string media title
behaves exactly as a missing current-media record, and an empty-string
queue-item name behaves exactly as a missing one. -/
theorem extract_current_track_never_empty :
    (∀ (fq : String → Except Unit (List QueueItem)) (p : PlayerRecord),
      extract_current_track fq p ≠ "") ∧
    (∀ (fq : String → Except Unit (List QueueItem)) (d : PlayerData) (a : Option String),
      extract_current_track fq
          (.attr { d with current_media := some { title := some "", artist := a } }) =
        extract_current_track fq (.attr { d with current_media := none })) ∧
    (∀ mi : Option MediaItem,
      queueItemTrack { name := some "", media_item := mi } =
        queueItemTrack { name := none, media_item := mi }) := by
  refine ⟨?_, ?_, ?_⟩
  · intro fq p
    unfold extract_current_track
    cases h1 : nonemptyFilter (extract_track_from_media p) with
    | some t => simpa using nonemptyFilter_some_ne h1
    | none =>
      cases h2 : nonemptyFilter (extract_track_from_queue fq p) with
      | some t => simpa using nonemptyFilter_some_ne h2
      | none => simp
  · intro fq d a
    obtain ⟨pid, nm, ps, pw, vl, vm, cm, cid⟩ := d
    simp [extract_current_track, extract_track_from_media, extract_track_from_queue,
      PlayerRecord.attrCurrentMedia, PlayerRecord.attrCurrentItemId, PlayerRecord.playerIdOf,
      nonemptyFilter]
  · intro mi
    rfl

/-- C6 counterexample: a present raw state outside the enumerated
vocabulary is passed through verbatim, not mapped to "unknown", so the
derived state escapes the set the claim allows. -/
theorem extract_playback_state_escapes_enum :
    extract_playback_state (.attr flyingPlayer) = "flying" ∧
    ("flying" ∈ (["playing", "paused", "stopped", "idle", "unknown"] : List String) → False) :=
  ⟨rfl, by decide⟩

/-- C6 (amended): the derived state is "unknown" when the raw state
attribute is absent; when present, the string form of the raw value is
passed through verbatim (so recognized values map to themselves and
unrecognized ones are not mapped to "unknown"); the derivation is a
total function and never raises. -/
theorem extract_playback_state_characterization (p : PlayerRecord) :
    (p.attrPlaybackState = none → extract_playback_state p = "unknown") ∧
    (∀ v, p.attrPlaybackState = some v → extract_playback_state p = renderRawState v) := by
  constructor
  · intro h
    unfold extract_playback_state
    rw [h]
  · intro v h
    unfold extract_playback_state
    rw [h]

/-- C8 counterexample: one payload carried as an attribute-bearing
object versus as a plain mapping yields different playback states and
different current-track labels, and looking up a non-matching id raises
on the object form while the mapping form reports no match — so neither
extraction nor lookup is representation-independent. -/
theorem representation_changes_extraction :
    extract_playback_state (.attr officePlayer) = "playing" ∧
    extract_playback_state (.map officePlayer) = "unknown" ∧
    extract_current_track emptyQueueFetch (.attr officePlayer) = "Artist - Song" ∧
    extract_current_track emptyQueueFetch (.map officePlayer) = "No track" ∧
    find_player_by_id [.attr officePlayer] "p2" = .error () ∧
    find_player_by_id [.map officePlayer] "p2" = .ok none ∧
    ("playing" = "unknown" → False) :=
  ⟨rfl, rfl, by decide, rfl, rfl, rfl, by decide⟩

/-- C8 (amended): the two representations of the same payload agree only
where the data lets both lookup branches succeed — on a matching id both
return the record — while on a non-matching id the mapping-style record
is skipped as no match but the attribute-style one raises; and every
derivation (playback state, media label, queue label, current track,
snapshot) reads only attribute-style fields, so a mapping-style record
always yields the defaults — state "unknown", no media label, track
"No track", powered true, muted false, absent volume level, name
"Unknown" — regardless of the data it carries. -/
theorem lookup_agrees_extraction_defaults (d : PlayerData) (pid : String)
    (fq : String → Except Unit (List QueueItem)) :
    (d.player_id = pid →
      find_player_by_id [.attr d] pid = .ok (some (.attr d)) ∧
      find_player_by_id [.map d] pid = .ok (some (.map d))) ∧
    (d.player_id ≠ pid →
      find_player_by_id [.attr d] pid = .error () ∧
      find_player_by_id [.map d] pid = .ok none) ∧
    extract_playback_state (.map d) = "unknown" ∧
    extract_track_from_media (.map d) = none ∧
    extract_track_from_queue fq (.map d) = none ∧
    extract_current_track fq (.map d) = "No track" ∧
    get_player_state [.map d] fq d.player_id =
      .ok (some { state := "unknown", powered := true, volume_level := none,
                  volume_muted := false, current_track := "No track",
                  player_name := "Unknown" }) := by
  refine ⟨?_, ?_, rfl, rfl, rfl, rfl, ?_⟩
  · intro h
    simp [find_player_by_id, h]
  · intro h
    simp [find_player_by_id, h]
  · simp [get_player_state, find_player_by_id,
      extract_playback_state, PlayerRecord.attrPlaybackState, PlayerRecord.attrPowered,
      PlayerRecord.attrVolumeLevel, PlayerRecord.attrVolumeMuted, PlayerRecord.attrName,
      extract_current_track, extract_track_from_media, extract_track_from_queue,
      PlayerRecord.attrCurrentMedia, PlayerRecord.attrCurrentItemId, nonemptyFilter]

/-- Skipping a non-matching mapping-style record leaves the scan
unchanged. -/
theorem find_skip {d : PlayerData} {pid : String} (h : d.player_id ≠ pid)
    (rest : List PlayerRecord) :
    find_player_by_id (.map d :: rest) pid = find_player_by_id rest pid := by
  simp [find_player_by_id, h]

/-- The scan completes with no record exactly when every record of the
list is a mapping-style one whose id does not match. -/
theorem find_ok_none_iff (players : List PlayerRecord) (pid : String) :
    find_player_by_id players pid = .ok none ↔
      ∀ p ∈ players, ∃ d, p = PlayerRecord.map d ∧ d.player_id ≠ pid := by
  induction players with
  | nil => simp [find_player_by_id]
  | cons q rest ih =>
    cases q with
    | attr d =>
      by_cases h : d.player_id = pid <;> simp [find_player_by_id, h]
    | map d =>
      by_cases h : d.player_id = pid <;> simp [find_player_by_id, h, ih]

/-- A record the scan returns has the requested id, and the snapshot is
assembled from it with the getattr defaults. -/
theorem get_player_state_of_found (players : List PlayerRecord)
    (fq : String → Except Unit (List QueueItem)) (pid : String) (p : PlayerRecord)
    (h : find_player_by_id players pid = .ok (some p)) :
    p.playerIdOf = pid ∧
    get_player_state players fq pid =
      .ok (some { state := extract_playback_state p
                  powered := p.attrPowered.getD true
                  volume_level := p.attrVolumeLevel
                  volume_muted := p.attrVolumeMuted.getD false
                  current_track := extract_current_track fq p
                  player_name := p.attrName.getD "Unknown" }) := by
  refine ⟨?_, ?_⟩
  · induction players with
    | nil => simp [find_player_by_id] at h
    | cons q rest ih =>
      cases q with
      | attr d =>
        by_cases hq : d.player_id = pid
        · simp [find_player_by_id, hq] at h
          rw [← h]
          exact hq
        · simp [find_player_by_id, hq] at h
      | map d =>
        by_cases hq : d.player_id = pid
        · simp [find_player_by_id, hq] at h
          rw [← h]
          exact hq
        · rw [find_skip hq] at h
          exact ih h
  · unfold get_player_state
    rw [h]

/-- C7 counterexample: a device list holding one attribute-style record
with id "p1" has no record matching "p2", so the claim demands an
absent result; the code instead aborts with the TypeError raised at the
key-membership test, which get_player_state propagates unhandled. -/
theorem get_player_state_raises_on_mismatch :
    ((PlayerRecord.attr officePlayer).playerIdOf = "p2" → False) ∧
    get_player_state [.attr officePlayer] emptyQueueFetch "p2" = .error () ∧
    (Except.error () = (Except.ok none : Except Unit (Option StateSnapshot)) → False) :=
  ⟨by decide, rfl, by simp⟩

/-- C7 (amended): getting a player state raises exactly when the id
scan raises, which happens as soon as the scan reaches an
attribute-style record with a non-matching id; it returns absent
exactly when the scan completes with no match — equivalently, when
every record of the fetched list is a mapping-style one with a
non-matching id; and when a record is found it has the requested id and
the snapshot is assembled from it, defaulting powered to true and muted
to false whenever those attributes are omitted. -/
theorem get_player_state_characterization (players : List PlayerRecord)
    (fq : String → Except Unit (List QueueItem)) (pid : String) :
    (get_player_state players fq pid = .ok none ↔
      find_player_by_id players pid = .ok none) ∧
    (get_player_state players fq pid = .error () ↔
      find_player_by_id players pid = .error ()) ∧
    (find_player_by_id players pid = .ok none ↔
      ∀ p ∈ players, ∃ d, p = PlayerRecord.map d ∧ d.player_id ≠ pid) ∧
    (∀ d rest, d.player_id ≠ pid →
      find_player_by_id (.attr d :: rest) pid = .error ()) ∧
    (∀ p, find_player_by_id players pid = .ok (some p) →
      p.playerIdOf = pid ∧
      get_player_state players fq pid =
        .ok (some { state := extract_playback_state p
                    powered := p.attrPowered.getD true
                    volume_level := p.attrVolumeLevel
                    volume_muted := p.attrVolumeMuted.getD false
                    current_track := extract_current_track fq p
                    player_name := p.attrName.getD "Unknown" })) ∧
    (∀ p s, find_player_by_id players pid = .ok (some p) →
      get_player_state players fq pid = .ok (some s) →
      (p.attrPowered = none → s.powered = true) ∧
      (p.attrVolumeMuted = none → s.volume_muted = false)) := by
  refine ⟨?_, ?_, find_ok_none_iff players pid, ?_, ?_, ?_⟩
  · unfold get_player_state
    cases h : find_player_by_id players pid with
    | error e => simp
    | ok o => cases o <;> simp
  · unfold get_player_state
    cases h : find_player_by_id players pid with
    | error e => simp
    | ok o => cases o <;> simp
  · intro d rest hd
    simp [find_player_by_id, hd]
  · intro p h
    exact get_player_state_of_found players fq pid p h
  · intro p s h hs
    have h2 := (get_player_state_of_found players fq pid p h).2
    have h3 := h2.symm.trans hs
    simp only [Except.ok.injEq, Option.some.injEq] at h3
    rw [← h3]
    constructor
    · intro hp
      simp [hp]
    · intro hm
      simp [hm]

/-- C3: the resolver never propagates an error — a failed device fetch
resolves to absent, and an empty fetched device list resolves to absent
regardless of the location hint and of any configured default id. -/
theorem get_player_id_absorbs_failure (hint dflt : Option String) :
    get_player_id (.error ()) hint dflt = none ∧
    get_player_id (.ok []) hint dflt = none :=
  ⟨rfl, rfl⟩

/-- C2: with a non-empty device list and a present non-empty hint, the
resolver returns the id of the first device, in list order, whose
display name contains the hint case-insensitively; with no match, or no
hint at all, it returns the configured default id when set and
non-empty, else the id of the first device. -/
theorem get_player_id_resolution (first : SkillPlayer) (rest : List SkillPlayer)
    (dflt : Option String) (h : String) (hne : h ≠ "") :
    (∀ q, (first :: rest).find? (fun p => containsCI p.name h) = some q →
      get_player_id (.ok (first :: rest)) (some h) dflt = some q.player_id) ∧
    ((first :: rest).find? (fun p => containsCI p.name h) = none →
      get_player_id (.ok (first :: rest)) (some h) dflt = fallbackId first dflt) ∧
    get_player_id (.ok (first :: rest)) none dflt = fallbackId first dflt := by
  refine ⟨?_, ?_, ?_⟩
  · intro q hq
    simp [get_player_id, hne, hq]
  · intro hq
    simp only [get_player_id, if_neg hne, hq]
    cases dflt with
    | none => rfl
    | some d => by_cases hd : d = "" <;> simp [fallbackId, hd]
  · cases dflt with
    | none => rfl
    | some d => by_cases hd : d = "" <;> simp [get_player_id, fallbackId, hd]

/-- C2 witness: the spec's own example — hint "Office" selects the
Office Speaker out of two devices. -/
theorem get_player_id_resolution_witness :
    get_player_id (.ok [⟨"Office Speaker", "A"⟩, ⟨"Living Room", "B"⟩])
      (some "Office") none = some "A" :=
  (get_player_id_resolution ⟨"Office Speaker", "A"⟩ [⟨"Living Room", "B"⟩] none
      "Office" (by decide)).1 ⟨"Office Speaker", "A"⟩ (by decide)

/-- C4 counterexample: a 204 response is a success at the transport
level (2xx), yet the dispatcher raises the transport error instead of
returning the decoded body. -/
theorem send_command_rejects_other_2xx :
    (200 ≤ 204 ∧ 204 < 300) ∧
    send_command ({ status_code := 204, text := "", json := .ok 7 } : HttpResponse Nat) =
      .error (.transport 204 "") ∧
    (Except.error (ClientError.transport 204 "") = (.ok (7 : Nat) : Except ClientError Nat) →
      False) :=
  ⟨by decide, rfl, by simp⟩

/-- C4 (amended): the dispatcher posts the envelope of command name,
per-call correlation token and arguments; it returns the decoded body
exactly when the status code is 200, fails with the transport error
carrying exactly the status code and raw body text whenever the status
is not 200 (other 2xx codes included), fails with the decode error
exactly when a 200 body does not decode, and defines no other
wire-level error encoding. -/
theorem send_command_wire_contract {α β : Type} (resp : HttpResponse α)
    (c m : String) (a : β) :
    (mkEnvelope c m a).command = c ∧
    (mkEnvelope c m a).message_id = m ∧
    (mkEnvelope c m a).args = a ∧
    (∀ v : α, send_command resp = .ok v ↔ resp.status_code = 200 ∧ resp.json = .ok v) ∧
    (send_command resp = .error .protocol ↔ resp.status_code = 200 ∧ resp.json = .error ()) ∧
    (∀ st body, send_command resp = .error (.transport st body) ↔
      resp.status_code ≠ 200 ∧ st = resp.status_code ∧ body = resp.text) := by
  refine ⟨rfl, rfl, rfl, ?_, ?_, ?_⟩
  · intro v
    unfold send_command
    by_cases h200 : resp.status_code = 200 <;> cases hj : resp.json <;> simp [h200, hj]
  · unfold send_command
    by_cases h200 : resp.status_code = 200 <;> cases hj : resp.json <;> simp [h200, hj]
  · intro st body
    unfold send_command
    by_cases h200 : resp.status_code = 200 <;> cases hj : resp.json <;>
      simp [h200, hj] <;> aesop

/-- C9: the correlation token of a call is exactly the fresh token drawn
for that call and nothing else, so whenever the per-call token supply is
injective — the property the uuid4 draw provides — distinct calls carry
distinct correlation tokens, whatever their command names and
arguments. -/
theorem message_id_fresh_per_call {β γ : Type} (tokens : Nat → String)
    (hinj : Function.Injective tokens) (i j : Nat) (hij : i ≠ j)
    (c₁ c₂ : String) (a₁ : β) (a₂ : γ) :
    (mkEnvelope c₁ (tokens i) a₁).message_id = tokens i ∧
    (mkEnvelope c₁ (tokens i) a₁).message_id ≠ (mkEnvelope c₂ (tokens j) a₂).message_id := by
  refine ⟨rfl, ?_⟩
  intro hcollide
  exact hij (hinj hcollide)

/-- C9 witness: with an injective token supply, call 0 and call 1 of two
different commands carry different correlation tokens. -/
theorem message_id_fresh_per_call_witness :
    (mkEnvelope "players/all" ((fun n => String.mk (List.replicate n 'a')) 0) (0 : Nat)).message_id
        = (fun n => String.mk (List.replicate n 'a')) 0 ∧
    (mkEnvelope "players/all" ((fun n => String.mk (List.replicate n 'a')) 0) (0 : Nat)).message_id
        ≠ (mkEnvelope "player_queues/pause"
            ((fun n => String.mk (List.replicate n 'a')) 1) (0 : Nat)).message_id :=
  message_id_fresh_per_call (fun n => String.mk (List.replicate n 'a'))
    (fun x y hxy => by
      simpa using congrArg (fun s : String => s.data.length) hxy)
    0 1 (by decide) "players/all" "player_queues/pause" 0 0

/-- Lowercasing fixes an ASCII digit. -/
theorem lowerChar_digit {c : Char} (h : isDigitChar c = true) : lowerChar c = c := by
  simp only [isDigitChar, Bool.and_eq_true, decide_eq_true_eq] at h
  unfold lowerChar
  rw [if_neg]
  rintro ⟨hA, hZ⟩
  exact absurd (le_trans hA h.2) (by decide)

/-- A character whose lowercase form is a non-digit is itself a
non-digit. -/
theorem head_not_digit {c x : Char} (hl : lowerChar c = x) (hx : isDigitChar x = false) :
    isDigitChar c = false := by
  by_cases h : isDigitChar c = true
  · rw [lowerChar_digit h] at hl
    rw [hl] at h
    rw [h] at hx
    simp at hx
  · simpa using h

/-- A list of digits is consumed whole by the digit span. -/
theorem spanDigits_all {l : List Char} (h : l.all isDigitChar = true) :
    spanDigits l = (l, []) := by
  induction l with
  | nil => rfl
  | cons c rest ih =>
    rw [List.all_cons, Bool.and_eq_true] at h
    simp [spanDigits, h.1, ih h.2]

/-- The digit span of a digit run followed by a non-digit splits exactly
there. -/
theorem spanDigits_append {d : List Char} (c : Char) (r : List Char)
    (hd : d.all isDigitChar = true) (hc : isDigitChar c = false) :
    spanDigits (d ++ c :: r) = (d, c :: r) := by
  induction d with
  | nil => simp [spanDigits, hc]
  | cons x xs ih =>
    rw [List.all_cons, Bool.and_eq_true] at hd
    simp [spanDigits, hd.1, ih hd.2]

/-- Parsing input with no leading digit falls through to the word
rules. -/
theorem parse_of_no_digits {s : String} (h : (spanDigits s.toList).1 = []) :
    parse_volume_level (some s) = wordVolume (lowerChars s.toList) := by
  simp only [parse_volume_level]
  rw [if_neg]
  rintro ⟨h1, h2⟩
  exact h1 h

/-- A non-empty digit run parses to its clamped value. -/
theorem parse_digits {l : List Char} (hne : l ≠ []) (hall : l.all isDigitChar = true) :
    parse_volume_level (some (String.mk l)) = some (min (digitsToNat l) 100) := by
  have hs : (String.mk l).toList = l := rfl
  simp only [parse_volume_level, hs, spanDigits_all hall]
  rw [if_pos]
  exact ⟨hne, rfl⟩

/-- A non-empty digit run followed by a recognized percent marker parses
to its clamped value. -/
theorem parse_digits_suffix {l : List Char} (c : Char) (r : List Char) (hne : l ≠ [])
    (hall : l.all isDigitChar = true) (hc : isDigitChar c = false)
    (hsuf : percentSuffix (c :: r) = true) :
    parse_volume_level (some (String.mk (l ++ c :: r))) = some (min (digitsToNat l) 100) := by
  have hs : (String.mk (l ++ c :: r)).toList = l ++ c :: r := rfl
  simp only [parse_volume_level, hs, spanDigits_append c r hall hc]
  rw [if_pos]
  exact ⟨hne, hsuf⟩

/-- Input whose lowercase form starts with a non-digit is handled only
by the word rules. -/
theorem parse_word {s : String} {x : Char} {xs : List Char}
    (hl : lowerChars s.toList = x :: xs) (hx : isDigitChar x = false) :
    parse_volume_level (some s) = wordVolume (x :: xs) := by
  cases hsl : s.toList with
  | nil =>
    rw [hsl] at hl
    simp [lowerChars] at hl
  | cons c rest =>
    rw [hsl] at hl
    have hc : lowerChar c = x := by
      have hh := congrArg List.head? hl
      simpa [lowerChars] using hh
    have hcd : isDigitChar c = false := head_not_digit hc hx
    have hspan : (spanDigits s.toList).1 = [] := by
      rw [hsl]
      simp [spanDigits, hcd]
    rw [parse_of_no_digits hspan, hsl, hl]

/-- Unrecognized input parses to absent. -/
theorem parse_otherwise {s : String}
    (h : (spanDigits s.toList).1 = [] ∨ percentSuffix (spanDigits s.toList).2 = false)
    (hw : wordVolume (lowerChars s.toList) = none) :
    parse_volume_level (some s) = none := by
  simp only [parse_volume_level]
  rw [if_neg, hw]
  rintro ⟨h1, h2⟩
  rcases h with h3 | h3
  · exact h1 h3
  · rw [h3] at h2
    simp at h2

/-- C5: the volume parser maps absent and empty input to absent, a digit
run to its value clamped to at most 100, a digit run with a percent
marker (sign, or the word with optional space) likewise, the four words
mute, half, loud, max case-insensitively to 0, 50, 75, 100, and
everything else to absent; it is a total function and never raises. -/
theorem parse_volume_level_spec :
    parse_volume_level none = none ∧
    parse_volume_level (some "") = none ∧
    (∀ l : List Char, l ≠ [] → l.all isDigitChar = true →
      parse_volume_level (some (String.mk l)) = some (min (digitsToNat l) 100)) ∧
    (∀ l : List Char, l ≠ [] → l.all isDigitChar = true →
      parse_volume_level (some (String.mk (l ++ ['%']))) = some (min (digitsToNat l) 100) ∧
      parse_volume_level (some (String.mk (l ++ ' ' :: String.toList "percent"))) =
        some (min (digitsToNat l) 100) ∧
      parse_volume_level (some (String.mk (l ++ String.toList "percent"))) =
        some (min (digitsToNat l) 100)) ∧
    (∀ s : String, lowerChars s.toList = String.toList "mute" →
      parse_volume_level (some s) = some 0) ∧
    (∀ s : String, lowerChars s.toList = String.toList "half" →
      parse_volume_level (some s) = some 50) ∧
    (∀ s : String, lowerChars s.toList = String.toList "loud" →
      parse_volume_level (some s) = some 75) ∧
    (∀ s : String, lowerChars s.toList = String.toList "max" →
      parse_volume_level (some s) = some 100) ∧
    (∀ s : String,
      ((spanDigits s.toList).1 = [] ∨ percentSuffix (spanDigits s.toList).2 = false) →
      wordVolume (lowerChars s.toList) = none → parse_volume_level (some s) = none) ∧
    parse_volume_level (some "150") = some 100 ∧
    parse_volume_level (some "75%") = some 75 ∧
    parse_volume_level (some "25 percent") = some 25 ∧
    parse_volume_level (some "invalid") = none := by
  refine ⟨rfl, rfl, ?_, ?_, ?_, ?_, ?_, ?_, ?_, by decide, by decide, by decide, by decide⟩
  · intro l hne hall
    exact parse_digits hne hall
  · intro l hne hall
    exact ⟨parse_digits_suffix '%' [] hne hall (by decide) (by decide),
      parse_digits_suffix ' ' (String.toList "percent") hne hall (by decide) (by decide),
      parse_digits_suffix 'p' (String.toList "ercent") hne hall (by decide) (by decide)⟩
  · intro s hs
    have hs2 : lowerChars s.toList = 'm' :: String.toList "ute" := hs
    rw [parse_word hs2 (by decide)]
    rfl
  · intro s hs
    have hs2 : lowerChars s.toList = 'h' :: String.toList "alf" := hs
    rw [parse_word hs2 (by decide)]
    rfl
  · intro s hs
    have hs2 : lowerChars s.toList = 'l' :: String.toList "oud" := hs
    rw [parse_word hs2 (by decide)]
    rfl
  · intro s hs
    have hs2 : lowerChars s.toList = 'm' :: String.toList "ax" := hs
    rw [parse_word hs2 (by decide)]
    rfl
  · intro s h hw
    exact parse_otherwise h hw

end MusicAssistant
